import Mathlib

/-!
Remote-Speaker: the settings header and the session lifecycle of the sender.

A shallow embedding of `src/Network/soundsender.cpp` (class `SoundSender`).

* `QByteArray` is a list of characters; every literal the code passes through
  `QString(...).toLocal8Bit()` is ASCII, so the local 8-bit encoding of a
  literal is the literal itself.
* `QString::number(int)` is the signed decimal rendering of an integer.
* The member fields of `SoundSender` together with the Qt objects they point
  to (the accepted sockets, the capture object) form the state `SoundSender`;
  every member function is a state transformer.  A member function that
  dereferences `receiverSocket` while no socket was ever accepted has no
  defined result and returns `none`.
-/

namespace RemoteSpeaker

/-! ## Data model -/

/-- Byte strings (`QByteArray`). -/
abbrev QByteArray := List Char

/-- The enumeration `QAudioFormat::Endian`. -/
inductive Endian where
  | BigEndian
  | LittleEndian
deriving DecidableEq, Repr

/-- The enumeration `QAudioFormat::SampleType`. -/
inductive SampleType where
  | Unknown
  | SignedInt
  | UnSignedInt
  | Float
deriving DecidableEq, Repr

/-- The six properties of a `QAudioFormat` that `getCurrentSettings` reads.
The codec is kept as the bytes `codec().toLocal8Bit()` yields. -/
structure QAudioFormat where
  sampleRate : Int
  channelCount : Int
  sampleSize : Int
  codec : QByteArray
  byteOrder : Endian
  sampleType : SampleType
deriving DecidableEq, Repr

/-! ## `QString::number` -/

/-- Decimal text of an `int`, as `QString::number(int).toLocal8Bit()` gives it:
the decimal digits, with a leading minus sign for a negative value.  An `int`
is an integer here; the code does no arithmetic on these fields. -/
def number (n : Int) : QByteArray :=
  if n < 0 then '-' :: Nat.toDigits 10 n.natAbs else Nat.toDigits 10 n.toNat

/-! ## `SoundSender::getCurrentSettings` (soundsender.cpp, lines 138-167) -/

/-- The header builder, statement by statement: `settings` starts empty and
every `settings.append(...)` of the source is one `++` here. -/
def getCurrentSettings (audioFormat : QAudioFormat) : QByteArray :=
  let settings : QByteArray := []
  let settings := settings ++ "\x7b\x7b\x7b".toList
  let settings := settings ++ number audioFormat.sampleRate
  let settings := settings ++ ";".toList
  let settings := settings ++ number audioFormat.channelCount
  let settings := settings ++ ";".toList
  let settings := settings ++ number audioFormat.sampleSize
  let settings := settings ++ ";".toList
  let settings := settings ++ audioFormat.codec
  let settings := settings ++ ";".toList
  let settings :=
    if audioFormat.byteOrder = Endian.LittleEndian then
      settings ++ "LittleEndian".toList
    else
      settings ++ "BigEndian".toList
  let settings := settings ++ ";".toList
  let settings :=
    if audioFormat.sampleType = SampleType.SignedInt then
      settings ++ "SignedInt".toList
    else if audioFormat.sampleType = SampleType.SignedInt then
      settings ++ "SignedInt".toList
    else if audioFormat.sampleType = SampleType.UnSignedInt then
      settings ++ "UnSignedInt".toList
    else if audioFormat.sampleType = SampleType.Float then
      settings ++ "Float".toList
    else
      settings ++ "Unknown".toList
  let settings := settings ++ ";".toList
  settings

/-- The format of the spec's example. -/
def exampleFormat : QAudioFormat :=
  { sampleRate := 44100, channelCount := 2, sampleSize := 16,
    codec := "audio/pcm".toList, byteOrder := Endian.LittleEndian,
    sampleType := SampleType.SignedInt }

/-- Name written for a byte order (source lines 150-153). -/
def byteOrderName (o : Endian) : QByteArray :=
  match o with
  | Endian.LittleEndian => "LittleEndian".toList
  | Endian.BigEndian => "BigEndian".toList

/-- Name written for a sample type (source lines 155-164). -/
def sampleTypeName (t : SampleType) : QByteArray :=
  match t with
  | SampleType.SignedInt => "SignedInt".toList
  | SampleType.UnSignedInt => "UnSignedInt".toList
  | SampleType.Float => "Float".toList
  | SampleType.Unknown => "Unknown".toList

/-- An unsigned-integer format. -/
def unsignedFormat : QAudioFormat :=
  { sampleRate := 8000, channelCount := 1, sampleSize := 8,
    codec := "audio/pcm".toList, byteOrder := Endian.BigEndian,
    sampleType := SampleType.UnSignedInt }

/-- A format whose codec identifier contains the separator byte. -/
def semicolonCodecFormat : QAudioFormat :=
  { sampleRate := 44100, channelCount := 2, sampleSize := 16,
    codec := "a;b".toList, byteOrder := Endian.LittleEndian,
    sampleType := SampleType.SignedInt }

/-! ## Reading a header back

The receiving side is not part of the sources.  The reader below follows the
specification: drop the marker, split what follows at `;`, read six fields.
-/

/-- The library call `QByteArray::split`: the pieces of a byte string between
its separator bytes; a string without separator is one piece. -/
def splitFields (sep : Char) : QByteArray → List QByteArray
  | [] => [[]]
  | c :: cs =>
    if c = sep then [] :: splitFields sep cs
    else
      match splitFields sep cs with
      | [] => [[c]]
      | f :: fs => (c :: f) :: fs

/-- The fields of a header on the wire: the `;`-delimited pieces of what
follows the three-byte marker. -/
def headerFields (header : QByteArray) : List QByteArray :=
  splitFields ';' (header.drop 3)

/-- Modelled from the spec: value of a run of ASCII decimal digits read left
to right, starting from `acc`; `none` on any other byte. -/
def readDigits (acc : Nat) : QByteArray → Option Nat
  | [] => some acc
  | c :: cs => if c.isDigit then readDigits (10 * acc + (c.toNat - 48)) cs else none

/-- Modelled from the spec: a numeric field is ASCII decimal text, read as an
integer; a leading minus sign is accepted. -/
def readInt (b : QByteArray) : Option Int :=
  match b with
  | [] => none
  | c :: cs =>
    if c = '-' then
      (if cs = [] then none
       else
         match readDigits 0 cs with
         | some n => some (-Int.ofNat n)
         | none => none)
    else
      match readDigits 0 (c :: cs) with
      | some n => some (Int.ofNat n)
      | none => none

/-- Modelled from the spec: the byte-order field is `LittleEndian` or
`BigEndian`. -/
def readByteOrder (b : QByteArray) : Option Endian :=
  if b = "LittleEndian".toList then some Endian.LittleEndian
  else if b = "BigEndian".toList then some Endian.BigEndian
  else none

/-- Modelled from the spec: the sample-type field is one of four names.  The
spelling of the unsigned type is a parameter: the specification writes
`UnsignedInt`. -/
def readSampleType (unsignedName : QByteArray) (b : QByteArray) : Option SampleType :=
  if b = "SignedInt".toList then some SampleType.SignedInt
  else if b = unsignedName then some SampleType.UnSignedInt
  else if b = "Float".toList then some SampleType.Float
  else if b = "Unknown".toList then some SampleType.Unknown
  else none

/-- Modelled from the spec: the receiver's header reader is not among the
sources.  It checks the marker, splits the rest at `;` and reads the first six
fields as sample rate, channel count, sample size, codec, byte-order name and
sample-type name; whatever follows the sixth field is not part of the
header. -/
def parseSettings (unsignedName : QByteArray) (header : QByteArray) : Option QAudioFormat :=
  if header.take 3 = "\x7b\x7b\x7b".toList then
    match headerFields header with
    | rate :: channels :: size :: codec :: order :: type :: _ =>
      match readInt rate, readInt channels, readInt size,
          readByteOrder order, readSampleType unsignedName type with
      | some r, some c, some s, some o, some t =>
        some { sampleRate := r, channelCount := c, sampleSize := s,
               codec := codec, byteOrder := o, sampleType := t }
      | _, _, _, _, _ => none
    | _ => none
  else none

/-- The spelling of the unsigned sample type in the specification. -/
def specUnsignedName : QByteArray := "UnsignedInt".toList

/-! ## The session: sockets, capture object, member functions -/

/-- The enumeration `QAudio::State`. -/
inductive QAudioState where
  | ActiveState
  | SuspendedState
  | StoppedState
  | IdleState
deriving DecidableEq, Repr

/-- A socket object: whether it is open, and the bytes handed to it so far. -/
structure QTcpSocket where
  isOpen : Bool
  written : QByteArray
deriving DecidableEq, Repr

/-- The call `QIODevice::write`: an open device takes the bytes, a device that
is not open takes none. -/
def QTcpSocket.write (sock : QTcpSocket) (data : QByteArray) : QTcpSocket :=
  if sock.isOpen then { sock with written := sock.written ++ data } else sock

/-- A capture object (`QAudioInput`): its identity, its state, and the device
it was started on. -/
structure QAudioInput where
  ident : Nat
  state : QAudioState
  device : Option Nat
deriving DecidableEq, Repr

/-- The calls the member functions make on Qt objects and the signals they
emit, in the order they are made. -/
inductive Call where
  | socketWrite (socket : Nat) (data : QByteArray)
  | setLowDelayOption (socket : Nat)
  | audioInputStop (ident : Nat)
  | audioInputDelete (ident : Nat)
  | audioInputNew (ident : Nat)
  | connectStateChanged (ident : Nat)
  | audioInputStart (ident : Nat) (socket : Nat)
  | connectDisconnectedSignal (socket : Nat)
  | connectDeleteLater (socket : Nat)
  | emitConnected
deriving DecidableEq, Repr

/-- The sender: its member fields (`audioFormat`, `receiverSocket`,
`audioInput`), the pending connections of its `server`, the socket objects by
address, the identity the next capture object gets, and the calls made so
far. -/
structure SoundSender where
  audioFormat : QAudioFormat
  pendingConnections : List Nat
  receiverSocket : Option Nat
  audioInput : Option QAudioInput
  sockets : Nat → QTcpSocket
  nextAudioInput : Nat
  calls : List Call

/-- The block `if (audioInput) { audioInput->stop(); delete audioInput;
audioInput = nullptr; }` (source lines 20-25 and, with the same text,
38-43). -/
def releaseAudioInput (s : SoundSender) : SoundSender :=
  match s.audioInput with
  | some a =>
    { s with
      audioInput := none
      calls := s.calls ++ [Call.audioInputStop a.ident, Call.audioInputDelete a.ident] }
  | none => s

/-- The member function `SoundSender::start` (source lines 14-34).
`platformState` is the state the platform reports for the new capture object
at line 31.  The result is the returned flag and the state afterwards.  The
`qDebug` output of line 30 is not part of the state. -/
def start (platformState : QAudioState) (s : SoundSender) : Option (Bool × SoundSender) :=
  match s.receiverSocket with
  | none => none
  | some p =>
    -- line 16
    let s := { s with
      sockets := Function.update s.sockets p
        ((s.sockets p).write (getCurrentSettings s.audioFormat))
      calls := s.calls ++ [Call.socketWrite p (getCurrentSettings s.audioFormat)] }
    -- line 17
    let s := { s with calls := s.calls ++ [Call.setLowDelayOption p] }
    -- lines 20-25
    let s := releaseAudioInput s
    -- line 26
    let a : QAudioInput :=
      { ident := s.nextAudioInput, state := QAudioState.StoppedState, device := none }
    let s := { s with
      audioInput := some a
      nextAudioInput := s.nextAudioInput + 1
      calls := s.calls ++ [Call.audioInputNew a.ident] }
    -- line 27
    let s := { s with calls := s.calls ++ [Call.connectStateChanged a.ident] }
    -- line 28
    let a := { a with state := platformState, device := some p }
    let s := { s with
      audioInput := some a
      calls := s.calls ++ [Call.audioInputStart a.ident p] }
    -- lines 31-33
    if a.state = QAudioState.StoppedState then some (false, s) else some (true, s)

/-- The member function `SoundSender::stop` (source lines 36-46). -/
def stop (s : SoundSender) : Option SoundSender :=
  -- lines 38-43
  let s := releaseAudioInput s
  -- lines 44-45
  match s.receiverSocket with
  | none => none
  | some p =>
    if (s.sockets p).isOpen then
      some { s with
        sockets := Function.update s.sockets p ((s.sockets p).write "stop!!!".toList)
        calls := s.calls ++ [Call.socketWrite p "stop!!!".toList] }
    else some s

/-- The slot `SoundSender::newConnection` (source lines 81-90). -/
def newConnection (s : SoundSender) : SoundSender :=
  match s.pendingConnections with
  | [] => s
  | p :: rest =>
    { s with
      pendingConnections := rest
      receiverSocket := some p
      calls := s.calls ++
        [Call.connectDisconnectedSignal p, Call.connectDeleteLater p, Call.emitConnected] }

/-- The slot `SoundSender::handleDisconnected` (source lines 117-120). -/
def handleDisconnected (s : SoundSender) : Option SoundSender :=
  stop s

/-- The platform side of `audioInput->start(receiverSocket)`: a capture object
in the active state hands each captured chunk to the device it was started
on. -/
def captureDelivers (chunk : QByteArray) (s : SoundSender) : SoundSender :=
  match s.audioInput with
  | some a =>
    match a.device with
    | some p =>
      if a.state = QAudioState.ActiveState then
        { s with sockets := Function.update s.sockets p ((s.sockets p).write chunk) }
      else s
    | none => s
  | none => s

/-- Delivery of a sequence of captured chunks, first to last. -/
def captureDeliversAll (chunks : List QByteArray) (s : SoundSender) : SoundSender :=
  chunks.foldl (fun st chunk => captureDelivers chunk st) s

/-- The entry points a caller drives the session with. -/
inductive Command where
  | start (platformState : QAudioState)
  | stop
  | handleDisconnected
deriving DecidableEq, Repr

/-- One command. -/
def step (c : Command) (s : SoundSender) : Option SoundSender :=
  match c with
  | Command.start platformState => (start platformState s).map Prod.snd
  | Command.stop => stop s
  | Command.handleDisconnected => handleDisconnected s

/-- A sequence of commands, first to last; `none` as soon as one of them has
no defined result. -/
def run (cs : List Command) (s : SoundSender) : Option SoundSender :=
  match cs with
  | [] => some s
  | c :: rest =>
    match step c s with
    | some s1 => run rest s1
    | none => none

/-- Number of capture objects created so far. -/
def captureOpens (s : SoundSender) : Nat :=
  s.calls.countP (fun c => match c with | Call.audioInputNew _ => true | _ => false)

/-- Number of capture objects destroyed so far. -/
def captureCloses (s : SoundSender) : Nat :=
  s.calls.countP (fun c => match c with | Call.audioInputDelete _ => true | _ => false)

/-- One when a capture object is held, zero otherwise. -/
def captureHeld (s : SoundSender) : Nat :=
  match s.audioInput with
  | some _ => 1
  | none => 0

/-- The calls the teardown block of `releaseAudioInput` makes in a given state. -/
def releaseCalls (s : SoundSender) : List Call :=
  match s.audioInput with
  | some a => [Call.audioInputStop a.ident, Call.audioInputDelete a.ident]
  | none => []

/-- The open/close balance of capture objects: as many created as destroyed,
plus the one held. -/
def balanced (s : SoundSender) : Prop :=
  captureOpens s = captureCloses s + captureHeld s

/-- Number of times `connected()` was emitted so far. -/
def connectedEvents (s : SoundSender) : Nat :=
  s.calls.count Call.emitConnected

/-- A session that accepted socket 0 (open, nothing written) and holds no
capture object. -/
def connectedSession : SoundSender :=
  { audioFormat := exampleFormat, pendingConnections := [], receiverSocket := some 0,
    audioInput := none, sockets := fun _ => { isOpen := true, written := [] },
    nextAudioInput := 0, calls := [] }

/-- A session that accepted socket 0 and streams to it. -/
def streamingSession : SoundSender :=
  { connectedSession with
    audioInput := some { ident := 0, state := QAudioState.ActiveState, device := some 0 }
    nextAudioInput := 1
    calls := [Call.audioInputNew 0] }

/-- A session that never accepted a socket. -/
def idleSession : SoundSender :=
  { connectedSession with receiverSocket := none }

/-- A session that accepted socket 0 and has a second peer, socket 1, waiting
in the server's queue. -/
def secondPeerSession : SoundSender :=
  { connectedSession with pendingConnections := [1] }

/-! ## Decimal text -/

theorem digitChar_facts (k : Nat) (hk : k < 10) :
    (Nat.digitChar k).isDigit = true ∧ (Nat.digitChar k).toNat - 48 = k
      ∧ Nat.digitChar k ≠ ';' ∧ Nat.digitChar k ≠ '-' := by
  interval_cases k <;> decide

theorem readDigits_append (xs ys : QByteArray) :
    ∀ acc, readDigits acc (xs ++ ys) = (readDigits acc xs).bind (fun a => readDigits a ys) := by
  induction xs with
  | nil => intro acc; simp [readDigits]
  | cons c cs ih =>
    intro acc
    by_cases hc : c.isDigit = true
    · simp [readDigits, hc, ih]
    · simp [readDigits, hc]

/-- What `Nat.toDigitsCore` puts in front of its accumulator: a non-empty run
of digit characters whose value is the number. -/
theorem toDigitsCore_spec (fuel : Nat) :
    ∀ n ds, n < fuel → ∃ pre, Nat.toDigitsCore 10 fuel n ds = pre ++ ds ∧ pre ≠ []
      ∧ (∀ c ∈ pre, c.isDigit = true ∧ c ≠ ';' ∧ c ≠ '-') ∧ readDigits 0 pre = some n := by
  induction fuel with
  | zero => intro n ds h; omega
  | succ fuel ih =>
    intro n ds h
    have hd := digitChar_facts (n % 10) (Nat.mod_lt _ (by decide))
    by_cases h0 : n / 10 = 0
    · refine ⟨[Nat.digitChar (n % 10)], ?_, by simp, ?_, ?_⟩
      · simp [Nat.toDigitsCore, h0]
      · intro c hc
        simp only [List.mem_singleton] at hc
        subst hc
        exact ⟨hd.1, hd.2.2.1, hd.2.2.2⟩
      · simp only [readDigits, hd.1, if_true, hd.2.1]
        congr 1
        omega
    · obtain ⟨pre, hpre, _, hall, hval⟩ :=
        ih (n / 10) (Nat.digitChar (n % 10) :: ds) (by omega)
      refine ⟨pre ++ [Nat.digitChar (n % 10)], ?_, by simp, ?_, ?_⟩
      · simp [Nat.toDigitsCore, h0, hpre]
      · intro c hc
        rcases List.mem_append.mp hc with hc | hc
        · exact hall c hc
        · simp only [List.mem_singleton] at hc
          subst hc
          exact ⟨hd.1, hd.2.2.1, hd.2.2.2⟩
      · rw [readDigits_append, hval]
        simp only [Option.some_bind, readDigits, hd.1, if_true, hd.2.1]
        congr 1
        omega

theorem toDigits_spec (n : Nat) :
    Nat.toDigits 10 n ≠ [] ∧ (∀ c ∈ Nat.toDigits 10 n, c.isDigit = true ∧ c ≠ ';' ∧ c ≠ '-')
      ∧ readDigits 0 (Nat.toDigits 10 n) = some n := by
  obtain ⟨pre, hpre, hne, hall, hval⟩ := toDigitsCore_spec (n + 1) n [] (Nat.lt_succ_self n)
  have : Nat.toDigits 10 n = pre := by simp [Nat.toDigits, hpre]
  rw [this]
  exact ⟨hne, hall, hval⟩

/-- The decimal text of an integer never contains the separator. -/
theorem number_no_semicolon (n : Int) : ';' ∉ number n := by
  unfold number
  split
  · intro h
    rcases List.mem_cons.mp h with h | h
    · exact absurd h (by decide)
    · exact ((toDigits_spec _).2.1 _ h).2.1 rfl
  · intro h
    exact ((toDigits_spec _).2.1 _ h).2.1 rfl

/-- Reading the decimal text of an integer gives the integer back. -/
theorem readInt_number (n : Int) : readInt (number n) = some n := by
  unfold number
  split
  · rename_i hneg
    obtain ⟨hne, _, hval⟩ := toDigits_spec n.natAbs
    simp only [readInt, if_true, hne, if_false, hval]
    congr 1
    simp only [Int.ofNat_eq_coe]
    omega
  · rename_i hpos
    obtain ⟨hne, hall, hval⟩ := toDigits_spec n.toNat
    cases hds : Nat.toDigits 10 n.toNat with
    | nil => exact absurd hds hne
    | cons c cs =>
      have hc : c ≠ '-' := (hall c (by rw [hds]; exact List.mem_cons_self _ _)).2.2
      rw [hds] at hval
      simp only [readInt, hc, if_false, hval]
      congr 1
      simp only [Int.ofNat_eq_coe]
      omega

theorem number_injective (m n : Int) (h : number m = number n) : m = n := by
  have hm := readInt_number m
  rw [h, readInt_number n] at hm
  exact (Option.some.inj hm).symm

/-! ## Fields -/

/-- A separator-free piece followed by a separator is the first field. -/
theorem splitFields_append (sep : Char) (a rest : QByteArray) (ha : sep ∉ a) :
    splitFields sep (a ++ sep :: rest) = a :: splitFields sep rest := by
  induction a with
  | nil => simp [splitFields]
  | cons c cs ih =>
    have hc : c ≠ sep := fun h => ha (by simp [h])
    have hcs : sep ∉ cs := fun h => ha (List.mem_cons_of_mem _ h)
    simp [splitFields, hc, ih hcs]

/-- Two texts that agree, each a separator-free piece, a separator and a
rest, agree piece by piece. -/
theorem append_sep_cancel (sep : Char) :
    ∀ (a b x y : QByteArray), sep ∉ a → sep ∉ b → a ++ sep :: x = b ++ sep :: y →
      a = b ∧ x = y := by
  intro a
  induction a with
  | nil =>
    intro b x y _ hb h
    cases b with
    | nil => simpa using h
    | cons d ds =>
      simp only [List.nil_append, List.cons_append, List.cons.injEq] at h
      exact absurd (by simp [h.1]) hb
  | cons c cs ih =>
    intro b x y ha hb h
    cases b with
    | nil =>
      simp only [List.nil_append, List.cons_append, List.cons.injEq] at h
      exact absurd (by simp [h.1]) ha
    | cons d ds =>
      simp only [List.cons_append, List.cons.injEq] at h
      have hcs : sep ∉ cs := fun hm => ha (List.mem_cons_of_mem _ hm)
      have hds : sep ∉ ds := fun hm => hb (List.mem_cons_of_mem _ hm)
      obtain ⟨h1, h2⟩ := ih ds x y hcs hds h.2
      exact ⟨by rw [h.1, h1], h2⟩

/-- The same, read from the end. -/
theorem append_sep_cancel_right (sep : Char) (a b x y : QByteArray)
    (ha : sep ∉ a) (hb : sep ∉ b) (h : x ++ sep :: a = y ++ sep :: b) : x = y ∧ a = b := by
  have hr := congrArg List.reverse h
  simp only [List.reverse_append, List.reverse_cons, List.append_assoc,
    List.singleton_append] at hr
  obtain ⟨h1, h2⟩ := append_sep_cancel sep a.reverse b.reverse x.reverse y.reverse
    (by simpa using ha) (by simpa using hb) hr
  exact ⟨List.reverse_injective h2, List.reverse_injective h1⟩

theorem byteOrderName_no_semicolon (o : Endian) : ';' ∉ byteOrderName o := by
  cases o <;> decide

theorem sampleTypeName_no_semicolon (t : SampleType) : ';' ∉ sampleTypeName t := by
  cases t <;> decide

theorem byteOrderName_injective (o1 o2 : Endian) (h : byteOrderName o1 = byteOrderName o2) :
    o1 = o2 := by
  cases o1 <;> cases o2 <;> first | rfl | exact absurd h (by decide)

theorem sampleTypeName_injective (t1 t2 : SampleType)
    (h : sampleTypeName t1 = sampleTypeName t2) : t1 = t2 := by
  cases t1 <;> cases t2 <;> first | rfl | exact absurd h (by decide)

theorem readByteOrder_name (o : Endian) : readByteOrder (byteOrderName o) = some o := by
  cases o <;> decide

theorem readSampleType_name (t : SampleType) :
    readSampleType "UnSignedInt".toList (sampleTypeName t) = some t := by
  cases t <;> decide

/-- The header as one concatenation. -/
theorem getCurrentSettings_eq (f : QAudioFormat) :
    getCurrentSettings f = "\x7b\x7b\x7b".toList ++ (number f.sampleRate ++ ';' ::
      (number f.channelCount ++ ';' :: (number f.sampleSize ++ ';' :: (f.codec ++ ';' ::
      (byteOrderName f.byteOrder ++ ';' :: (sampleTypeName f.sampleType ++ [';'])))))) := by
  obtain ⟨r, c, z, codec, o, t⟩ := f
  cases o <;> cases t <;> simp [getCurrentSettings, byteOrderName, sampleTypeName]

/-- The fields of a header whose codec has no separator byte: the six values
and an empty seventh field after the closing separator. -/
theorem headerFields_getCurrentSettings (f : QAudioFormat) (hcodec : ';' ∉ f.codec) :
    headerFields (getCurrentSettings f) = [number f.sampleRate, number f.channelCount,
      number f.sampleSize, f.codec, byteOrderName f.byteOrder, sampleTypeName f.sampleType,
      []] := by
  rw [getCurrentSettings_eq]
  have hdrop : ∀ (x : QByteArray), ("\x7b\x7b\x7b".toList ++ x).drop 3 = x := fun x => rfl
  unfold headerFields
  rw [hdrop, splitFields_append _ _ _ (number_no_semicolon _),
    splitFields_append _ _ _ (number_no_semicolon _),
    splitFields_append _ _ _ (number_no_semicolon _),
    splitFields_append _ _ _ hcodec,
    splitFields_append _ _ _ (byteOrderName_no_semicolon _),
    splitFields_append _ _ _ (sampleTypeName_no_semicolon _)]
  rfl


/-! ## The session: what one call does -/

theorem releaseAudioInput_facts (s : SoundSender) :
    (releaseAudioInput s).audioInput = none
      ∧ (releaseAudioInput s).calls = s.calls ++ releaseCalls s
      ∧ (releaseAudioInput s).receiverSocket = s.receiverSocket
      ∧ (releaseAudioInput s).sockets = s.sockets
      ∧ (releaseAudioInput s).nextAudioInput = s.nextAudioInput
      ∧ (releaseAudioInput s).pendingConnections = s.pendingConnections
      ∧ (releaseAudioInput s).audioFormat = s.audioFormat := by
  unfold releaseAudioInput releaseCalls
  cases ha : s.audioInput <;> simp [ha]

/-- Everything `start` does on a session that has a socket. -/
theorem start_facts (st : QAudioState) (s : SoundSender) (p : Nat)
    (hp : s.receiverSocket = some p) :
    ∃ r s1, start st s = some (r, s1)
      ∧ (r = true ↔ st ≠ QAudioState.StoppedState)
      ∧ s1.receiverSocket = some p
      ∧ s1.audioInput = some { ident := s.nextAudioInput, state := st, device := some p }
      ∧ s1.nextAudioInput = s.nextAudioInput + 1
      ∧ s1.calls = s.calls ++ Call.socketWrite p (getCurrentSettings s.audioFormat)
          :: Call.setLowDelayOption p
          :: (releaseCalls s ++ [Call.audioInputNew s.nextAudioInput,
                Call.connectStateChanged s.nextAudioInput,
                Call.audioInputStart s.nextAudioInput p])
      ∧ s1.sockets = Function.update s.sockets p
          ((s.sockets p).write (getCurrentSettings s.audioFormat))
      ∧ s1.pendingConnections = s.pendingConnections
      ∧ s1.audioFormat = s.audioFormat := by
  unfold start
  simp only [hp]
  by_cases hst : st = QAudioState.StoppedState
  · simp only [hst, if_true]
    refine ⟨false, _, rfl, ?_⟩
    cases ha : s.audioInput <;> simp [releaseAudioInput, releaseCalls, ha]
  · simp only [hst, if_false]
    refine ⟨true, _, rfl, ?_⟩
    cases ha : s.audioInput <;> simp [releaseAudioInput, releaseCalls, ha, hst]

/-- Everything `stop` does on a session that has a socket. -/
theorem stop_facts (s : SoundSender) (p : Nat) (hp : s.receiverSocket = some p) :
    ∃ s1, stop s = some s1
      ∧ s1.receiverSocket = some p
      ∧ s1.audioInput = none
      ∧ s1.nextAudioInput = s.nextAudioInput
      ∧ s1.calls = s.calls ++ releaseCalls s
          ++ (if (s.sockets p).isOpen then [Call.socketWrite p "stop!!!".toList] else [])
      ∧ s1.sockets = (if (s.sockets p).isOpen
          then Function.update s.sockets p ((s.sockets p).write "stop!!!".toList)
          else s.sockets)
      ∧ s1.pendingConnections = s.pendingConnections
      ∧ s1.audioFormat = s.audioFormat := by
  obtain ⟨h1, h2, h3, h4, h5, h6, h7⟩ := releaseAudioInput_facts s
  unfold stop
  simp only [h3, hp, h4]
  by_cases ho : (s.sockets p).isOpen = true
  · simp only [ho, if_true]
    refine ⟨_, rfl, ?_⟩
    simp [h1, h2, h3, h4, h5, h6, h7, hp]
  · simp only [ho]
    refine ⟨_, rfl, ?_⟩
    simp [h1, h2, h3, h4, h5, h6, h7, hp]

theorem write_isOpen (sock : QTcpSocket) (data : QByteArray) :
    (sock.write data).isOpen = sock.isOpen := by
  unfold QTcpSocket.write
  split <;> simp_all

theorem write_written (sock : QTcpSocket) (data : QByteArray) (h : sock.isOpen = true) :
    (sock.write data).written = sock.written ++ data := by
  simp [QTcpSocket.write, h]

theorem countP_new_releaseCalls (s : SoundSender) :
    (releaseCalls s).countP
      (fun c => match c with | Call.audioInputNew _ => true | _ => false) = 0 := by
  unfold releaseCalls
  cases s.audioInput <;> simp

theorem countP_delete_releaseCalls (s : SoundSender) :
    (releaseCalls s).countP
      (fun c => match c with | Call.audioInputDelete _ => true | _ => false)
      = captureHeld s := by
  unfold releaseCalls captureHeld
  cases s.audioInput <;> simp

theorem start_balanced (st : QAudioState) (s : SoundSender) (p : Nat)
    (hp : s.receiverSocket = some p) (hb : balanced s) :
    ∃ r s1, start st s = some (r, s1) ∧ s1.receiverSocket = some p ∧ balanced s1 := by
  obtain ⟨r, s1, h, _, h1, h2, _, h3, _⟩ := start_facts st s p hp
  refine ⟨r, s1, h, h1, ?_⟩
  unfold balanced captureOpens captureCloses captureHeld at *
  rw [h3, h2]
  simp only [List.countP_append, List.countP_cons, countP_new_releaseCalls,
    countP_delete_releaseCalls, List.countP_nil]
  simp only [captureHeld]
  simp
  omega

theorem stop_balanced (s : SoundSender) (p : Nat)
    (hp : s.receiverSocket = some p) (hb : balanced s) :
    ∃ s1, stop s = some s1 ∧ s1.receiverSocket = some p ∧ balanced s1 := by
  obtain ⟨s1, h, h1, h2, _, h3, _⟩ := stop_facts s p hp
  refine ⟨s1, h, h1, ?_⟩
  unfold balanced captureOpens captureCloses captureHeld at *
  rw [h3, h2]
  simp only [List.countP_append, countP_new_releaseCalls, countP_delete_releaseCalls]
  simp only [captureHeld]
  split <;> simp <;> omega

theorem run_balanced (cs : List Command) :
    ∀ (s : SoundSender) (p : Nat), s.receiverSocket = some p → balanced s →
      ∃ s1, run cs s = some s1 ∧ s1.receiverSocket = some p ∧ balanced s1 := by
  induction cs with
  | nil => intro s p hp hb; exact ⟨s, rfl, hp, hb⟩
  | cons c rest ih =>
    intro s p hp hb
    have hstep : ∃ s1, step c s = some s1 ∧ s1.receiverSocket = some p ∧ balanced s1 := by
      cases c with
      | start st =>
        obtain ⟨r, s1, h, h1, h2⟩ := start_balanced st s p hp hb
        exact ⟨s1, by simp [step, h], h1, h2⟩
      | stop => exact stop_balanced s p hp hb
      | handleDisconnected => exact stop_balanced s p hp hb
    obtain ⟨s1, h, h1, h2⟩ := hstep
    obtain ⟨s2, h3, h4, h5⟩ := ih s1 p h1 h2
    exact ⟨s2, by simp [run, h, h3], h4, h5⟩

/-- Captured chunks reach the socket an active capture object was started on,
in order, and nothing reaches it from a capture object in another state. -/
theorem captureDeliversAll_written (chunks : List QByteArray) :
    ∀ (s : SoundSender) (a : QAudioInput) (p : Nat), s.audioInput = some a →
      a.device = some p → (s.sockets p).isOpen = true →
      ((captureDeliversAll chunks s).sockets p).written
        = (s.sockets p).written
          ++ (if a.state = QAudioState.ActiveState then chunks.flatten else []) := by
  induction chunks with
  | nil => intro s a p _ _ _; simp [captureDeliversAll]
  | cons chunk rest ih =>
    intro s a p ha hd ho
    by_cases hact : a.state = QAudioState.ActiveState
    · have h1 : captureDelivers chunk s
          = { s with sockets := Function.update s.sockets p ((s.sockets p).write chunk) } := by
        simp [captureDelivers, ha, hd, hact]
      have h2 := ih (captureDelivers chunk s) a p (by rw [h1]; exact ha) hd
        (by rw [h1]; simp [write_isOpen, ho])
      simp only [captureDeliversAll, List.foldl_cons] at h2 ⊢
      rw [h2, h1]
      simp [hact, write_written _ _ ho]
    · have h1 : captureDelivers chunk s = s := by
        simp [captureDelivers, ha, hd, hact]
      have h2 := ih s a p ha hd ho
      simp only [captureDeliversAll, List.foldl_cons] at h2 ⊢
      rw [h1, h2]
      simp [hact]

/-! ## The settings header: claims -/

/-- C1 (as stated, refuted): the header of the example format is not the text
without a closing separator that the claim gives; the code appends one more
`;` after the sample-type name. -/
theorem getCurrentSettings_example_not_unterminated :
    getCurrentSettings exampleFormat
      ≠ "\x7b\x7b\x7b44100;2;16;audio/pcm;LittleEndian;SignedInt".toList := by
  decide

/-- C1 (amended): for every audio format the header is the marker, then the
six fields sample rate, channel count, sample size (decimal), codec,
byte-order name and sample-type name, each of the six followed by a single
`;`, the last one included; the example format serializes to
`{{{44100;2;16;audio/pcm;LittleEndian;SignedInt;`. -/
theorem getCurrentSettings_layout (f : QAudioFormat) :
    getCurrentSettings f
        = "\x7b\x7b\x7b".toList ++ number f.sampleRate ++ ";".toList
          ++ number f.channelCount ++ ";".toList ++ number f.sampleSize ++ ";".toList
          ++ f.codec ++ ";".toList ++ byteOrderName f.byteOrder ++ ";".toList
          ++ sampleTypeName f.sampleType ++ ";".toList
      ∧ getCurrentSettings exampleFormat
        = "\x7b\x7b\x7b44100;2;16;audio/pcm;LittleEndian;SignedInt;".toList := by
  refine ⟨?_, by decide⟩
  rw [getCurrentSettings_eq]
  simp

/-- C2 (as stated, refuted): read with the specification's names, the header
of an unsigned-integer format does not give the format back (the code writes
`UnSignedInt`), and the header of a format whose codec contains `;` does not
give the format back under either spelling. -/
theorem parseSettings_roundtrip_fails :
    parseSettings specUnsignedName (getCurrentSettings unsignedFormat) ≠ some unsignedFormat
      ∧ parseSettings specUnsignedName (getCurrentSettings semicolonCodecFormat)
          ≠ some semicolonCodecFormat
      ∧ parseSettings "UnSignedInt".toList (getCurrentSettings semicolonCodecFormat)
          ≠ some semicolonCodecFormat := by
  decide

/-- C2 (amended): for every audio format whose codec contains no `;` byte,
removing the marker, splitting the rest at `;` and reading the first six
fields as decimal integers, codec, byte-order name and sample-type name, with
the unsigned type spelled `UnSignedInt`, reconstructs exactly the original
format. -/
theorem parseSettings_getCurrentSettings (f : QAudioFormat) (hcodec : ';' ∉ f.codec) :
    parseSettings "UnSignedInt".toList (getCurrentSettings f) = some f := by
  have hmark : (getCurrentSettings f).take 3 = "\x7b\x7b\x7b".toList := by
    rw [getCurrentSettings_eq]
    rfl
  unfold parseSettings
  rw [if_pos hmark, headerFields_getCurrentSettings f hcodec]
  simp only [readInt_number, readByteOrder_name, readSampleType_name]

/-- Witness for C2 (amended): the example format. -/
theorem parseSettings_getCurrentSettings_witness :
    ';' ∉ exampleFormat.codec
      ∧ parseSettings "UnSignedInt".toList (getCurrentSettings exampleFormat)
          = some exampleFormat :=
  ⟨by decide, parseSettings_getCurrentSettings exampleFormat (by decide)⟩

/-- C8 (as stated, refuted): the sixth field of the header of an
unsigned-integer format is `UnSignedInt`, not `UnsignedInt`; and when the
codec contains `;` the sixth `;`-delimited field is not the sample-type name
at all. -/
theorem headerFields_sixth_not_as_claimed :
    (headerFields (getCurrentSettings unsignedFormat))[5]? = some "UnSignedInt".toList
      ∧ (headerFields (getCurrentSettings unsignedFormat))[5]? ≠ some "UnsignedInt".toList
      ∧ semicolonCodecFormat.sampleType = SampleType.SignedInt
      ∧ (headerFields (getCurrentSettings semicolonCodecFormat))[5]? ≠ some "SignedInt".toList := by
  decide

/-- C8 (amended): for every audio format whose codec contains no `;` byte,
the sixth field of the header is `SignedInt`, `UnSignedInt`, `Float` or
`Unknown` for the sample types SignedInt, UnSignedInt, Float, Unknown
respectively, and the fifth field is `LittleEndian` for little-endian byte
order and `BigEndian` otherwise. -/
theorem headerFields_names (f : QAudioFormat) (hcodec : ';' ∉ f.codec) :
    (f.sampleType = SampleType.SignedInt →
        (headerFields (getCurrentSettings f))[5]? = some "SignedInt".toList)
      ∧ (f.sampleType = SampleType.UnSignedInt →
        (headerFields (getCurrentSettings f))[5]? = some "UnSignedInt".toList)
      ∧ (f.sampleType = SampleType.Float →
        (headerFields (getCurrentSettings f))[5]? = some "Float".toList)
      ∧ (f.sampleType = SampleType.Unknown →
        (headerFields (getCurrentSettings f))[5]? = some "Unknown".toList)
      ∧ (f.byteOrder = Endian.LittleEndian →
        (headerFields (getCurrentSettings f))[4]? = some "LittleEndian".toList)
      ∧ (f.byteOrder ≠ Endian.LittleEndian →
        (headerFields (getCurrentSettings f))[4]? = some "BigEndian".toList) := by
  rw [headerFields_getCurrentSettings f hcodec]
  refine ⟨?_, ?_, ?_, ?_, ?_, ?_⟩ <;> intro h
  · simp [h, sampleTypeName]
  · simp [h, sampleTypeName]
  · simp [h, sampleTypeName]
  · simp [h, sampleTypeName]
  · simp [h, byteOrderName]
  · cases hb : f.byteOrder with
    | BigEndian => simp [byteOrderName]
    | LittleEndian => exact absurd hb h

/-- Witness for C8 (amended): the unsigned-integer format. -/
theorem headerFields_names_witness :
    ';' ∉ unsignedFormat.codec
      ∧ (headerFields (getCurrentSettings unsignedFormat))[5]? = some "UnSignedInt".toList
      ∧ (headerFields (getCurrentSettings unsignedFormat))[4]? = some "BigEndian".toList :=
  ⟨by decide,
    (headerFields_names unsignedFormat (by decide)).2.1 rfl,
    (headerFields_names unsignedFormat (by decide)).2.2.2.2.2 (by decide)⟩

/-- C10: two audio formats with the same header are the same format, whatever
bytes the codec holds. -/
theorem getCurrentSettings_injective (f g : QAudioFormat)
    (h : getCurrentSettings f = getCurrentSettings g) : f = g := by
  rw [getCurrentSettings_eq, getCurrentSettings_eq] at h
  have h0 := List.append_cancel_left h
  obtain ⟨hr, h1⟩ := append_sep_cancel ';' _ _ _ _
    (number_no_semicolon _) (number_no_semicolon _) h0
  obtain ⟨hc, h2⟩ := append_sep_cancel ';' _ _ _ _
    (number_no_semicolon _) (number_no_semicolon _) h1
  obtain ⟨hz, h3⟩ := append_sep_cancel ';' _ _ _ _
    (number_no_semicolon _) (number_no_semicolon _) h2
  have e : ∀ (c o t : QByteArray),
      c ++ ';' :: (o ++ ';' :: (t ++ [';'])) = ((c ++ ';' :: o) ++ ';' :: t) ++ ';' :: [] := by
    intro c o t
    simp
  rw [e, e] at h3
  obtain ⟨h4, _⟩ := append_sep_cancel_right ';' _ _ _ _ (by simp) (by simp) h3
  obtain ⟨h5, ht⟩ := append_sep_cancel_right ';' _ _ _ _
    (sampleTypeName_no_semicolon _) (sampleTypeName_no_semicolon _) h4
  obtain ⟨hcodec, ho⟩ := append_sep_cancel_right ';' _ _ _ _
    (byteOrderName_no_semicolon _) (byteOrderName_no_semicolon _) h5
  obtain ⟨r1, c1, z1, codec1, o1, t1⟩ := f
  obtain ⟨r2, c2, z2, codec2, o2, t2⟩ := g
  simp only at hr hc hz hcodec ho ht
  rw [number_injective _ _ hr, number_injective _ _ hc, number_injective _ _ hz, hcodec,
    byteOrderName_injective _ _ ho, sampleTypeName_injective _ _ ht]

/-- Witness for C10: a format whose codec contains `;`. -/
theorem getCurrentSettings_injective_witness :
    getCurrentSettings { exampleFormat with codec := "a;b".toList }
        = getCurrentSettings semicolonCodecFormat
      ∧ { exampleFormat with codec := "a;b".toList } = semicolonCodecFormat :=
  ⟨by decide, getCurrentSettings_injective _ semicolonCodecFormat (by decide)⟩

/-! ## The session: claims -/

/-- C3 (as stated, refuted): a session that holds socket 0 and finds socket 1
pending takes socket 1 as its peer socket and raises `connected()` once more;
socket 1 is taken from the queue and stays open. -/
theorem newConnection_second_peer_replaces :
    secondPeerSession.receiverSocket = some 0
      ∧ (newConnection secondPeerSession).receiverSocket = some 1
      ∧ connectedEvents secondPeerSession = 0
      ∧ connectedEvents (newConnection secondPeerSession) = 1
      ∧ (newConnection secondPeerSession).pendingConnections = []
      ∧ ((newConnection secondPeerSession).sockets 1).isOpen = true := by
  decide

/-- C3 (amended): for every session that already has a peer socket, handling
a second incoming connection accepts it: the newly accepted socket becomes the
session's peer socket and one more `connected()` event is raised; the capture
object is unchanged and no socket object, the first one included, is closed
or written to. -/
theorem newConnection_accepts (s : SoundSender) (q p : Nat) (rest : List Nat)
    (hq : s.receiverSocket = some q) (hpending : s.pendingConnections = p :: rest) :
    (newConnection s).receiverSocket = some p
      ∧ (newConnection s).pendingConnections = rest
      ∧ connectedEvents (newConnection s) = connectedEvents s + 1
      ∧ (newConnection s).audioInput = s.audioInput
      ∧ (newConnection s).sockets q = s.sockets q
      ∧ (newConnection s).sockets = s.sockets := by
  have _ := hq
  simp [newConnection, hpending, connectedEvents, List.count_append]

/-- Witness for C3 (amended): socket 1 arrives while socket 0 is held. -/
theorem newConnection_accepts_witness :
    secondPeerSession.receiverSocket = some 0
      ∧ secondPeerSession.pendingConnections = [1]
      ∧ (newConnection secondPeerSession).receiverSocket = some 1 :=
  ⟨rfl, rfl, (newConnection_accepts secondPeerSession 0 1 [] rfl rfl).1⟩

/-- C4: on a session with an accepted socket whose opened capture objects
equal the destroyed ones plus the one held (if any), every sequence of
`start`, `stop` and `handleDisconnected` calls runs to a result and keeps that
balance; and a `start` that finds a capture object held stops and destroys it
before it creates the new one. -/
theorem capture_balance (s : SoundSender) (p : Nat) (cs : List Command)
    (hp : s.receiverSocket = some p)
    (hb : captureOpens s = captureCloses s + captureHeld s) :
    (∃ s1, run cs s = some s1
        ∧ captureOpens s1 = captureCloses s1 + captureHeld s1)
      ∧ (∀ (st : QAudioState) (a : QAudioInput), s.audioInput = some a →
          ∃ r s1, start st s = some (r, s1)
            ∧ s1.calls = s.calls ++ [Call.socketWrite p (getCurrentSettings s.audioFormat),
                Call.setLowDelayOption p,
                Call.audioInputStop a.ident, Call.audioInputDelete a.ident,
                Call.audioInputNew s.nextAudioInput,
                Call.connectStateChanged s.nextAudioInput,
                Call.audioInputStart s.nextAudioInput p]) := by
  constructor
  · obtain ⟨s1, h, _, h2⟩ := run_balanced cs s p hp hb
    exact ⟨s1, h, h2⟩
  · intro st a ha
    obtain ⟨r, s1, h, _, _, _, _, h3, _⟩ := start_facts st s p hp
    refine ⟨r, s1, h, ?_⟩
    rw [h3]
    simp [releaseCalls, ha]

/-- Witness for C4: start twice, stop, disconnect, start again on a fresh
connected session. -/
theorem capture_balance_witness :
    connectedSession.receiverSocket = some 0
      ∧ captureOpens connectedSession
          = captureCloses connectedSession + captureHeld connectedSession
      ∧ ∃ s1, run [Command.start QAudioState.ActiveState, Command.start QAudioState.ActiveState,
            Command.stop, Command.handleDisconnected,
            Command.start QAudioState.IdleState] connectedSession = some s1
          ∧ captureOpens s1 = captureCloses s1 + captureHeld s1 :=
  ⟨rfl, by decide, (capture_balance connectedSession 0 _ rfl (by decide)).1⟩

/-- C5 (as stated, refuted): after `handleDisconnected` on a streaming or a
connected session the member `receiverSocket` still refers to socket 0; and on
a session that never accepted a socket the handler has no defined result. -/
theorem handleDisconnected_keeps_socket :
    (handleDisconnected streamingSession).map (fun s => s.receiverSocket) = some (some 0)
      ∧ (handleDisconnected connectedSession).map (fun s => s.receiverSocket) = some (some 0)
      ∧ (handleDisconnected idleSession).isNone = true := by
  decide

/-- C5 (amended): for every prior state in which the session has a peer
socket (connected with no capture, or streaming with an open capture), after
`handleDisconnected` no capture object is held; the session's reference to
the peer socket is unchanged. -/
theorem handleDisconnected_releases_capture (s : SoundSender) (p : Nat)
    (hp : s.receiverSocket = some p) :
    ∃ s1, handleDisconnected s = some s1
      ∧ s1.audioInput = none
      ∧ s1.receiverSocket = some p := by
  obtain ⟨s1, h, h1, h2, _⟩ := stop_facts s p hp
  exact ⟨s1, h, h2, h1⟩

/-- Witness for C5 (amended): the streaming session. -/
theorem handleDisconnected_releases_capture_witness :
    streamingSession.receiverSocket = some 0
      ∧ ∃ s1, handleDisconnected streamingSession = some s1
          ∧ s1.audioInput = none
          ∧ s1.receiverSocket = some 0 :=
  ⟨rfl, handleDisconnected_releases_capture streamingSession 0 rfl⟩

/-- C6: on a session with an open peer socket, `start` then `stop` leave the
same socket associated and open and no capture object held; a further `start`,
with no new connection in between, writes the settings header to that socket
again, creates a fresh capture object started on it, and returns true exactly
when that object is not in the stopped state. -/
theorem start_stop_start (s : SoundSender) (p : Nat) (st1 st2 : QAudioState)
    (hp : s.receiverSocket = some p) (hopen : (s.sockets p).isOpen = true) :
    ∃ r1 s1 s2 r3 s3, start st1 s = some (r1, s1) ∧ stop s1 = some s2
      ∧ s2.receiverSocket = some p
      ∧ (s2.sockets p).isOpen = true
      ∧ s2.audioInput = none
      ∧ start st2 s2 = some (r3, s3)
      ∧ s3.receiverSocket = some p
      ∧ s3.pendingConnections = s.pendingConnections
      ∧ (s3.sockets p).written = (s2.sockets p).written ++ getCurrentSettings s.audioFormat
      ∧ s3.audioInput
          = some { ident := s.nextAudioInput + 1, state := st2, device := some p }
      ∧ s1.audioInput
          = some { ident := s.nextAudioInput, state := st1, device := some p }
      ∧ (r3 = true ↔ st2 ≠ QAudioState.StoppedState) := by
  obtain ⟨r1, s1, h1, _, a1, a2, a3, _, a5, a6, a7⟩ := start_facts st1 s p hp
  obtain ⟨s2, h2, b1, b2, b3, _, b5, b6, b7⟩ := stop_facts s1 p a1
  obtain ⟨r3, s3, h3, c0, c1, c2, _, _, c5, c6, _⟩ := start_facts st2 s2 p b1
  have ho1 : (s1.sockets p).isOpen = true := by
    rw [a5]
    simp [write_isOpen, hopen]
  have ho2 : (s2.sockets p).isOpen = true := by
    rw [b5]
    simp [ho1, write_isOpen]
  refine ⟨r1, s1, s2, r3, s3, h1, h2, b1, ho2, b2, h3, c1, ?_, ?_, ?_, a2, c0⟩
  · rw [c6, b6, a6]
  · rw [c5, b7, a7]
    simp [write_written _ _ ho2]
  · rw [c2, b3, a3]

/-- Witness for C6: the connected session. -/
theorem start_stop_start_witness :
    connectedSession.receiverSocket = some 0
      ∧ (connectedSession.sockets 0).isOpen = true
      ∧ ∃ r1 s1 s2 r3 s3, start QAudioState.ActiveState connectedSession = some (r1, s1)
          ∧ stop s1 = some s2
          ∧ start QAudioState.ActiveState s2 = some (r3, s3)
          ∧ r3 = true := by
  refine ⟨rfl, rfl, ?_⟩
  obtain ⟨r1, s1, s2, r3, s3, h1, h2, _, _, _, h3, _, _, _, _, _, h4⟩ :=
    start_stop_start connectedSession 0 QAudioState.ActiveState QAudioState.ActiveState rfl rfl
  exact ⟨r1, s1, s2, r3, s3, h1, h2, h3, h4.mpr (by decide)⟩

/-- C7: when the peer socket is open, `stop` appends exactly the seven bytes
`stop!!!` to that socket's output, writes to no other socket, makes no other
write call, releases the capture object if one was held and leaves the socket
open; when the peer socket is not open and no capture object is held, `stop`
changes nothing. -/
theorem stop_writes_sentinel (s : SoundSender) (p : Nat)
    (hp : s.receiverSocket = some p) :
    ((s.sockets p).isOpen = true →
        ∃ s1, stop s = some s1
          ∧ (s1.sockets p).written = (s.sockets p).written ++ "stop!!!".toList
          ∧ "stop!!!".toList.length = 7
          ∧ (∀ q, q ≠ p → s1.sockets q = s.sockets q)
          ∧ s1.calls = s.calls ++ releaseCalls s ++ [Call.socketWrite p "stop!!!".toList]
          ∧ s1.audioInput = none
          ∧ (s1.sockets p).isOpen = true
          ∧ s1.receiverSocket = some p)
      ∧ ((s.sockets p).isOpen = false → s.audioInput = none → stop s = some s) := by
  constructor
  · intro ho
    obtain ⟨s1, h, h1, h2, _, h4, h5, _⟩ := stop_facts s p hp
    rw [if_pos ho] at h4 h5
    refine ⟨s1, h, ?_, rfl, ?_, h4, h2, ?_, h1⟩
    · rw [h5]
      simp [write_written _ _ ho]
    · intro q hq
      rw [h5]
      simp [Function.update_noteq hq]
    · rw [h5]
      simp [write_isOpen, ho]
  · intro hc ha
    simp [stop, releaseAudioInput, ha, hp, hc]

/-- Witness for C7: the streaming session, whose socket is open. -/
theorem stop_writes_sentinel_witness :
    streamingSession.receiverSocket = some 0
      ∧ (streamingSession.sockets 0).isOpen = true
      ∧ ∃ s1, stop streamingSession = some s1
          ∧ (s1.sockets 0).written = "stop!!!".toList
          ∧ s1.audioInput = none := by
  refine ⟨rfl, rfl, ?_⟩
  obtain ⟨s1, h, h1, _, _, _, h2, _⟩ := (stop_writes_sentinel streamingSession 0 rfl).1 rfl
  exact ⟨s1, h, h1, h2⟩

/-- C9: `start` on a session with an open peer socket makes exactly one write
call, the settings header of the current format on the peer socket, and makes
it before the capture object is created and started on that socket; the
socket's output grows by the header, and whatever the new capture object
delivers afterwards follows the complete header. -/
theorem start_header_first (s : SoundSender) (p : Nat) (st : QAudioState)
    (hp : s.receiverSocket = some p) (hopen : (s.sockets p).isOpen = true) :
    ∃ r s1, start st s = some (r, s1)
      ∧ s1.calls = s.calls ++ Call.socketWrite p (getCurrentSettings s.audioFormat)
          :: Call.setLowDelayOption p
          :: (releaseCalls s ++ [Call.audioInputNew s.nextAudioInput,
                Call.connectStateChanged s.nextAudioInput,
                Call.audioInputStart s.nextAudioInput p])
      ∧ (s1.calls.drop s.calls.length).countP
          (fun c => match c with | Call.socketWrite _ _ => true | _ => false) = 1
      ∧ (s1.sockets p).written = (s.sockets p).written ++ getCurrentSettings s.audioFormat
      ∧ (∀ chunks : List QByteArray,
          ((captureDeliversAll chunks s1).sockets p).written
            = (s.sockets p).written ++ getCurrentSettings s.audioFormat
              ++ (if st = QAudioState.ActiveState then chunks.flatten else [])) := by
  obtain ⟨r, s1, h, _, _, a2, _, a4, a5, _⟩ := start_facts st s p hp
  have hw : (s1.sockets p).written
      = (s.sockets p).written ++ getCurrentSettings s.audioFormat := by
    rw [a5]
    simp [write_written _ _ hopen]
  have ho : (s1.sockets p).isOpen = true := by
    rw [a5]
    simp [write_isOpen, hopen]
  refine ⟨r, s1, h, a4, ?_, hw, ?_⟩
  · rw [a4, List.drop_left]
    have hrel : (releaseCalls s).countP
        (fun c => match c with | Call.socketWrite _ _ => true | _ => false) = 0 := by
      unfold releaseCalls
      cases s.audioInput <;> simp
    simp [List.countP_cons, List.countP_append, hrel]
  · intro chunks
    rw [captureDeliversAll_written chunks s1 _ p a2 rfl ho, hw]

/-- Witness for C9: the connected session, with two chunks delivered after
the start. -/
theorem start_header_first_witness :
    connectedSession.receiverSocket = some 0
      ∧ (connectedSession.sockets 0).isOpen = true
      ∧ ∃ r s1, start QAudioState.ActiveState connectedSession = some (r, s1)
          ∧ ((captureDeliversAll ["ab".toList, "c".toList] s1).sockets 0).written
            = getCurrentSettings exampleFormat ++ "abc".toList := by
  refine ⟨rfl, rfl, ?_⟩
  obtain ⟨r, s1, h, _, _, _, h2⟩ :=
    start_header_first connectedSession 0 QAudioState.ActiveState rfl rfl
  exact ⟨r, s1, h, by rw [h2]; rfl⟩

end RemoteSpeaker
